import Mathlib

/-
Verification of the Guard checkpoint-management library (src/guard/guard.py).

The Python class `Guard` persists one JSON metadata record per checkpoint under
`meta/<id>.json`, one summary file `summary.json` holding the `last` and `best`
records, and artifact files under `dump/` written by a pluggable `serialize`.
This file is a shallow embedding: the filesystem state of one experiment
directory is a `GuardFS`, the per-instance mutable state (summary cache and the
shared default argument of `checkpoint`) is a `GuardState`, and each method of
the class becomes a pure function on that state.  Fallible methods return
`Except`, carrying the state as it was when the Python exception escaped.
-/

namespace Guard

/-- JSON-compatible values stored in checkpoint metadata: numbers (metric
values and timestamps), strings (ids, dates) and the null sentinel used by
`get_history`. -/
inductive Val where
  | vnat : Nat → Val
  | vstr : String → Val
  | vnone : Val
  deriving DecidableEq, Repr

/-- A metadata record: a Python dict from field names to values, modelled as an
association list in insertion order (Python dicts preserve insertion order). -/
abbrev Meta := List (String × Val)

/-- Python `d[k] = v`: replace the value of an existing key in place, otherwise
append the new key at the end (dict insertion-order semantics). -/
def setKey : Meta → String → Val → Meta
  | [], k, v => [(k, v)]
  | (k', v') :: t, k, v => if k' = k then (k, v) :: t else (k', v') :: setKey t k v

/-- The comparator used in the spec's examples: `new < old` on numeric values,
i.e. lower is better (also the constructor's default `lambda x, y: x < y`). -/
def vltNat : Val → Val → Bool
  | .vnat a, .vnat b => a < b
  | _, _ => false

/-- The summary dict `{"last": ..., "best": ...}` persisted in `summary.json`;
either key may be absent (the empty dict `{}` is both keys absent). -/
structure Summary where
  last : Option Meta := none
  best : Option Meta := none
  deriving DecidableEq, Repr

/-- The on-disk state of one experiment directory: the metadata directory
(`meta/<id>.json`, keyed by the filename stem `id`), the artifact dump
directory (file basenames), and the optional `summary.json`. -/
structure GuardFS where
  metaFiles : List (String × Meta) := []
  dumpFiles : List String := []
  summaryFile : Option Summary := none
  deriving DecidableEq, Repr

/-- One `Guard` instance's state: the directory tree plus the in-memory summary
cache (`self._summary`) and the dict object used as `checkpoint`'s default
`meta={}` argument.  Python evaluates that default once at function definition
and reuses the same dict on every no-argument call, so it is instance state
here (module state in Python, but one instance suffices for the claims). -/
structure GuardState where
  fs : GuardFS := {}
  cache : Option Summary := none
  defaultMeta : Meta := []
  deriving DecidableEq, Repr

/-- Construction-time configuration of a `Guard` (`mode`, `best_key`,
`best_compare`, `cache`). -/
structure Config where
  mode : String
  best_key : Option String := none
  best_compare : Val → Val → Bool
  cache : Bool := true

/-- The Python exceptions the modelled code paths can raise, plus the
`NoSuchCheckpointError` that spec §7 prescribes for deserialization of a
missing `best`/`last`; the source never raises the latter. -/
inductive PyError where
  | keyError : String → PyError
  | attributeError : PyError
  | noSuchCheckpoint : PyError
  deriving DecidableEq, Repr

/-- Result of the serialization capability; the base class returns the
`NotImplemented` sentinel (it does not raise). -/
inductive SerResult where
  | notImplemented : SerResult
  | value : Val → SerResult
  deriving DecidableEq, Repr

/-- Character-list prefix test, used to model shell-glob matching. -/
def listIsPrefix : List Char → List Char → Bool
  | [], _ => true
  | _ :: _, [] => false
  | a :: as, b :: bs => a == b && listIsPrefix as bs

/-- Character-list infix test. -/
def listIsInfix (n : List Char) : List Char → Bool
  | [] => listIsPrefix n []
  | b :: bs => listIsPrefix n (b :: bs) || listIsInfix n bs

/-- Python's substring containment `needle in hay`, used by the source for the
mode checks `"all" in self._mode` etc. -/
def strContains (hay needle : String) : Bool :=
  listIsInfix needle.toList hay.toList

/-- String prefix test, used to model the glob pattern `id + "*"` in
`Guard.remove`: a dump file matches iff its basename starts with `id`. -/
def strIsPrefixOf (p s : String) : Bool :=
  listIsPrefix p.toList s.toList

/-- Model of `Guard.get_summary`: return the cached summary when caching is on and a
value is cached, else the parsed `summary.json`, else the empty dict. -/
def getSummary (cfg : Config) (st : GuardState) : Summary :=
  if cfg.cache ∧ st.cache.isSome then st.cache.getD {} else st.fs.summaryFile.getD {}

/-- Model of `Guard.write_summary`: store in the cache when caching is enabled, and
overwrite `summary.json`. -/
def write_summary (cfg : Config) (st : GuardState) (s : Summary) : GuardState :=
  { st with
    cache := if cfg.cache then some s else st.cache
    fs := { st.fs with summaryFile := some s } }

/-- Model of `Guard.update_summary`: set `summary["last"] = meta`; when a `best_key` is
configured, make `meta` the new `best` when no `best` exists or the key is
absent from the current `best`, otherwise compare `meta[best_key]` against
`best[best_key]` with `best_compare` — the lookup `meta[self._best_key]`
raises `KeyError` when the key is missing, and at that point the assignment
`summary["last"] = meta` has already mutated the cached summary dict in place
(the dict returned by `get_summary` is the cache object itself), while
`write_summary` was never reached. -/
def update_summary (cfg : Config) (st : GuardState) (meta : Meta) :
    Except (PyError × GuardState) (Summary × GuardState) :=
  let s0 := getSummary cfg st
  let s1 : Summary := { s0 with last := some meta }
  match cfg.best_key with
  | none => .ok (s1, write_summary cfg st s1)
  | some k =>
    match s1.best with
    | none =>
      let s2 : Summary := { s1 with best := some meta }
      .ok (s2, write_summary cfg st s2)
    | some b =>
      match b.lookup k with
      | none =>
        let s2 : Summary := { s1 with best := some meta }
        .ok (s2, write_summary cfg st s2)
      | some old =>
        match meta.lookup k with
        | none =>
          .error (.keyError k,
            if cfg.cache ∧ st.cache.isSome then { st with cache := some s1 } else st)
        | some new =>
          let s2 : Summary :=
            if cfg.best_compare new old then { s1 with best := some meta } else s1
          .ok (s2, write_summary cfg st s2)

/-- Deletion of every dump-directory file matching the glob `id + "*"`, i.e.
every basename of which `id` is a bare textual prefix (the matching used by
`Guard.remove`). -/
def removeDump (files : List String) (id : String) : List String :=
  files.filter (fun f => !(strIsPrefixOf id f))

/-- Model of `Guard.remove`: the path argument is `<dump_dir>/<id>`; the method takes
the basename stem back out of it (the ids the program generates contain no
dot, so the stem is `id` itself) and removes every dump file matching the glob
`id + "*"`. -/
def remove (fs : GuardFS) (id : String) : GuardFS :=
  { fs with dumpFiles := removeDump fs.dumpFiles id }

/-- The `keep` list built by `Guard.cleanup`:
`summary.get("best", {}).get("id", None)` when `"best"` occurs in the mode
string, then the same for `"last"`; entries may be `None`. -/
def keepList (cfg : Config) (s : Summary) : List (Option Val) :=
  (if strContains cfg.mode "best" then [s.best.bind (fun b => b.lookup "id")] else []) ++
  (if strContains cfg.mode "last" then [s.last.bind (fun l => l.lookup "id")] else [])

/-- The loop of `Guard.cleanup` over the snapshot of `meta/*.json` taken by
`glob.glob`: each file whose stem is not in `keep` is removed together with
its dump files (via `Guard.remove` on `<dump_dir>/<id>`). -/
def cleanupLoop (keep : List (Option Val)) : List (String × Meta) → GuardFS → GuardFS
  | [], fs => fs
  | (id, _) :: rest, fs =>
    if some (Val.vstr id) ∈ keep then cleanupLoop keep rest fs
    else cleanupLoop keep rest
      { fs with
        metaFiles := fs.metaFiles.filter (fun p => p.1 ≠ id)
        dumpFiles := removeDump fs.dumpFiles id }

/-- Model of `Guard.cleanup`: no-op when `"all"` occurs in the mode string, otherwise
re-read the summary, build the keep list and delete every metadata file whose
id is not kept, along with its dump files.  `os.remove` is only applied to
files the surrounding `glob` just found, so the operation cannot fail. -/
def cleanup (cfg : Config) (st : GuardState) : GuardState :=
  if strContains cfg.mode "all" then st
  else { st with fs := cleanupLoop (keepList cfg (getSummary cfg st)) st.fs.metaFiles st.fs }

/-- The reserved fields merged into the caller's dict by `Guard.save_meta`:
`meta.update({"id": id, "timestamp": timestamp, "date_time": date_time})`. -/
def addReserved (meta : Meta) (id : String) (ts : Nat) (dt : String) : Meta :=
  setKey (setKey (setKey meta "id" (.vstr id)) "timestamp" (.vnat ts)) "date_time" (.vstr dt)

/-- Writing `meta/<id>.json`: overwrite the record when the filename already
exists, otherwise create a new directory entry. -/
def writeFile : List (String × Meta) → String → Meta → List (String × Meta)
  | [], id, m => [(id, m)]
  | (i, r) :: t, id, m => if i = id then (id, m) :: t else (i, r) :: writeFile t id m

/-- Model of `Guard.save_meta`: merge the reserved fields into the caller's dict
(mutating it) and write the record to `meta/<id>.json`.  The id and timestamp
come from `uuid.uuid4()` and `time.time()`; the embedding takes them as
arguments of the call. -/
def save_meta (st : GuardState) (meta : Meta) (id : String) (ts : Nat) (dt : String) :
    Meta × GuardState :=
  let merged := addReserved meta id ts dt
  (merged, { st with fs := { st.fs with metaFiles := writeFile st.fs.metaFiles id merged } })

/-- Model of `Guard.serialize`, base-class implementation: returns the `NotImplemented`
sentinel and writes nothing. -/
def serialize (_path : String) : SerResult :=
  SerResult.notImplemented

/-- Model of `Guard.deserialize`, base-class implementation: returns the
`NotImplemented` sentinel. -/
def deserialize (_path : String) : SerResult :=
  SerResult.notImplemented

/-- Model of `Guard.checkpoint` (base class): `save_meta`, then `serialize` on
`<dump_dir>/<id>`, then `update_summary` with the (mutated) dict, then
`cleanup`; returns the serialization result.  A `none` argument models calling
`checkpoint()` with no `meta`: Python then passes the shared default dict,
and `save_meta`'s `meta.update(...)` mutates that shared dict. -/
def checkpoint (cfg : Config) (st : GuardState) (metaArg : Option Meta)
    (id : String) (ts : Nat) (dt : String) :
    Except (PyError × GuardState) (SerResult × GuardState) :=
  let meta0 := metaArg.getD st.defaultMeta
  let saved := save_meta st meta0 id ts dt
  let st1 := match metaArg with
    | none => { saved.2 with defaultMeta := saved.1 }
    | some _ => saved.2
  match update_summary cfg st1 saved.1 with
  | .error e => .error e
  | .ok r => .ok (serialize ("dump/" ++ id), cleanup cfg r.2)

/-- Model of `Guard.get_best`: `summary.get("best", None)`. -/
def getBest (cfg : Config) (st : GuardState) : Option Meta :=
  (getSummary cfg st).best

/-- Model of `Guard.get_last`: `summary.get("last", None)`. -/
def getLast (cfg : Config) (st : GuardState) : Option Meta :=
  (getSummary cfg st).last

/-- Model of `Guard.deserialize_best`: `self.get_summary()["best"]["id"]` — indexing a
summary with no `"best"` key raises `KeyError("best")`, a `best` record with
no `"id"` raises `KeyError("id")`; otherwise the base `deserialize` is called
on `<dump_dir>/<best_id>`. -/
def deserialize_best (cfg : Config) (st : GuardState) : Except PyError SerResult :=
  match (getSummary cfg st).best with
  | none => .error (.keyError "best")
  | some b =>
    match b.lookup "id" with
    | none => .error (.keyError "id")
    | some (.vstr best_id) => .ok (deserialize ("dump/" ++ best_id))
    | some _ => .ok (deserialize "")

/-- Model of `Guard.deserialize_last`: `self.get_summary()["last"]["id"]`, symmetric to
`deserialize_best`. -/
def deserialize_last (cfg : Config) (st : GuardState) : Except PyError SerResult :=
  match (getSummary cfg st).last with
  | none => .error (.keyError "last")
  | some l =>
    match l.lookup "id" with
    | none => .error (.keyError "id")
    | some (.vstr last_id) => .ok (deserialize ("dump/" ++ last_id))
    | some _ => .ok (deserialize "")

/-- The sort key of `get_history`: `d.get("timestamp", 0)`; the records the
program writes carry numeric timestamps. -/
def tsKey (m : Meta) : Nat :=
  match m.lookup "timestamp" with
  | some (.vnat n) => n
  | _ => 0

/-- Stable insertion used to model Python's stable `list.sort`. -/
def insertByTs (m : Meta) : List Meta → List Meta
  | [] => [m]
  | x :: xs => if tsKey m ≤ tsKey x then m :: x :: xs else x :: insertByTs m xs

/-- Stable ascending sort by timestamp (`all_meta.sort(key=...)`). -/
def sortByTs : List Meta → List Meta
  | [] => []
  | x :: xs => insertByTs x (sortByTs xs)

/-- A column-oriented history: one value sequence per field name, in first-
appearance order (Python dict insertion order). -/
abbrev History := List (String × List Val)

/-- Append a value to an existing column (`history[k].append(meta[k])`). -/
def colAppend : History → String → Val → History
  | [], _, _ => []
  | (k', col) :: t, k, v =>
    if k' = k then (k', col ++ [v]) :: t else (k', col) :: colAppend t k v

/-- First loop of an iteration of `get_history`: for each key of the record,
append its value to the key's column, creating the column padded with `n`
null sentinels at the key's first appearance (`history[k] = n*[None] +
[meta[k]]`). -/
def histAddKeys (n : Nat) : History → Meta → History
  | h, [] => h
  | h, (k, v) :: rest =>
    if (h.lookup k).isSome then histAddKeys n (colAppend h k v) rest
    else histAddKeys n (h ++ [(k, List.replicate n Val.vnone ++ [v])]) rest

/-- Second loop of an iteration of `get_history`: every column whose key the
record lacks gets a null sentinel appended. -/
def histPad (h : History) (meta : Meta) : History :=
  h.map (fun p => if (meta.lookup p.1).isSome then p else (p.1, p.2 ++ [Val.vnone]))

/-- The aggregation loop of `get_history` (source lines 365–377): sort the
records by timestamp, then fold the two per-record loops with the running
record index. -/
def historyAggregate (ms : List Meta) : History :=
  ((sortByTs ms).foldl
    (fun p meta => (p.1 + 1, histPad (histAddKeys p.1 p.2 meta) meta)) (0, [])).2

/-- Model of `json.load` applied to a filename string, exactly as
`map(json.load, glob.glob(meta_filenames))` does in the source (line 364):
`json.load` requires a file object with a `read` method, so applying it to a
`str` raises `AttributeError` regardless of the file's content. -/
def json_load_str (_path : String) : Except PyError Meta :=
  .error .attributeError

/-- Model of `Guard.get_history`: map `json.load` over the glob of `meta/*.json` (which
raises `AttributeError` on the first filename, since the argument is the
filename string, not an open file), then aggregate the loaded records. -/
def get_history (st : GuardState) : Except PyError History :=
  match (st.fs.metaFiles.map (fun p => p.1 ++ ".json")).mapM json_load_str with
  | .error e => .error e
  | .ok all_meta => .ok (historyAggregate all_meta)

/-- The merged record a checkpoint call produces from its inputs. -/
def mergedOf (meta : Meta) (id : String) (ts : Nat) (dt : String) : Meta :=
  addReserved meta id ts dt

/-- One checkpoint call's inputs: the caller's dict and the generated
id/timestamp/date_time. -/
structure CallIn where
  meta : Meta
  id : String
  ts : Nat
  dt : String
  deriving DecidableEq, Repr

/-- A sequence of `checkpoint` calls with explicit metadata arguments,
propagating the first error. -/
def runSeq (cfg : Config) : GuardState → List CallIn →
    Except (PyError × GuardState) GuardState
  | st, [] => .ok st
  | st, c :: rest =>
    match checkpoint cfg st (some c.meta) c.id c.ts c.dt with
    | .error e => .error e
    | .ok r => runSeq cfg r.2 rest

/-- The freshly constructed state: empty directories, no summary, no cache,
and the default-argument dict still empty. -/
def initState : GuardState := {}

/-- Configuration of the spec's best-tracking example: mode `all`, best key
`"v"`, comparator `new < old` (lower is better). -/
def cfgAll : Config := { mode := "all", best_key := some "v", best_compare := vltNat }

/-- The spec's best-tracking example sequence: key values `[5, 3, 8, 1, 9]`. -/
def callsBest : List CallIn :=
  [⟨[("v", .vnat 5)], "i0", 0, "t0"⟩, ⟨[("v", .vnat 3)], "i1", 1, "t1"⟩,
   ⟨[("v", .vnat 8)], "i2", 2, "t2"⟩, ⟨[("v", .vnat 1)], "i3", 3, "t3"⟩,
   ⟨[("v", .vnat 9)], "i4", 4, "t4"⟩]

/-- Configuration of the spec's retention example: mode `last,best`, best key
`"v"`, lower is better. -/
def cfgLastBest : Config :=
  { mode := "last,best", best_key := some "v", best_compare := vltNat }

/-- The spec's retention example sequence: checkpoints `[{v:5},{v:2},{v:9}]`. -/
def callsRetention : List CallIn :=
  [⟨[("v", .vnat 5)], "a1", 0, "t0"⟩, ⟨[("v", .vnat 2)], "b2", 1, "t1"⟩,
   ⟨[("v", .vnat 9)], "c3", 2, "t2"⟩]

/-- A plain configuration: mode `all`, no best key. -/
def cfgPlain : Config := { mode := "all", best_key := none, best_compare := vltNat }

/-- A metadata record `{a: 1}` as written by the program (reserved fields
included), timestamp 1. -/
def recA : Meta :=
  [("a", .vnat 1), ("id", .vstr "i1"), ("timestamp", .vnat 1), ("date_time", .vstr "d1")]

/-- A metadata record `{b: 2}` as written by the program, timestamp 2. -/
def recB : Meta :=
  [("b", .vnat 2), ("id", .vstr "i2"), ("timestamp", .vnat 2), ("date_time", .vstr "d2")]

/-- A state whose metadata directory holds the single record `recA`. -/
def stOneRecord : GuardState := { fs := { metaFiles := [("i1", recA)] } }

/-- A dump directory holding one artifact of checkpoint id `"1"` and one of
the distinct checkpoint id `"12"`, of which `"1"` is a textual prefix. -/
def fsPrefixPair : GuardFS := { dumpFiles := ["1.pth", "12.pth"] }

/-- A state whose summary holds a `best` record carrying the best key `"v"`
(record id `"i0"`), both on disk and in the metadata directory. -/
def stWithBest : GuardState :=
  { fs := { metaFiles := [("i0", recV)], dumpFiles := [],
            summaryFile := some { last := some recV, best := some recV } } }
where
  /-- The record `{v: 7}` with reserved fields. -/
  recV : Meta :=
    [("v", .vnat 7), ("id", .vstr "i0"), ("timestamp", .vnat 0), ("date_time", .vstr "d0")]

/-- The state reached by the spec's retention example just before a final
cleanup: three records `{v:5}`, `{v:2}`, `{v:9}` on disk and a summary whose
`best` is the `{v:2}` record and whose `last` is the `{v:9}` record. -/
def stRet : GuardState :=
  { fs := { metaFiles := [("a1", rec1), ("b2", rec2), ("c3", rec3)], dumpFiles := [],
            summaryFile := some { last := some rec3, best := some rec2 } } }
where
  /-- The record `{v: 5}` with reserved fields, id `a1`. -/
  rec1 : Meta :=
    [("v", .vnat 5), ("id", .vstr "a1"), ("timestamp", .vnat 0), ("date_time", .vstr "t0")]
  /-- The record `{v: 2}` with reserved fields, id `b2`. -/
  rec2 : Meta :=
    [("v", .vnat 2), ("id", .vstr "b2"), ("timestamp", .vnat 1), ("date_time", .vstr "t1")]
  /-- The record `{v: 9}` with reserved fields, id `c3`. -/
  rec3 : Meta :=
    [("v", .vnat 9), ("id", .vstr "c3"), ("timestamp", .vnat 2), ("date_time", .vstr "t2")]

/-- Two concrete checkpoint calls with distinct ids, for the mode-`all`
sequence property. -/
def callsTwo : List CallIn :=
  [⟨[("a", .vnat 1)], "x1", 1, "u1"⟩, ⟨[("b", .vnat 2)], "x2", 2, "u2"⟩]

end Guard

/-! ## Helper lemmas -/

namespace Guard

theorem lookup_setKey_self (m : Meta) (k : String) (v : Val) :
    (setKey m k v).lookup k = some v := by
  induction m with
  | nil => simp [setKey, List.lookup]
  | cons p t ih =>
    obtain ⟨k', v'⟩ := p
    by_cases h : k' = k
    · simp [setKey, h, List.lookup]
    · have hb : (k == k') = false := beq_eq_false_iff_ne.mpr (Ne.symm h)
      simp [setKey, h, List.lookup, hb, ih]

theorem lookup_setKey_ne (m : Meta) {k' k : String} (v : Val) (h : k' ≠ k) :
    (setKey m k v).lookup k' = m.lookup k' := by
  have hb : (k' == k) = false := beq_eq_false_iff_ne.mpr h
  induction m with
  | nil => simp [setKey, List.lookup, hb]
  | cons p t ih =>
    obtain ⟨k₀, v₀⟩ := p
    by_cases h0 : k₀ = k
    · subst h0
      simp [setKey, List.lookup, hb]
    · simp [setKey, h0, List.lookup, ih]

theorem setKey_ne_nil (m : Meta) (k : String) (v : Val) : setKey m k v ≠ [] := by
  cases m with
  | nil => simp [setKey]
  | cons p t =>
    obtain ⟨k', v'⟩ := p
    by_cases h : k' = k <;> simp [setKey, h]

theorem lookup_addReserved_id (m : Meta) (id : String) (ts : Nat) (dt : String) :
    (addReserved m id ts dt).lookup "id" = some (.vstr id) := by
  unfold addReserved
  rw [lookup_setKey_ne _ _ (by decide), lookup_setKey_ne _ _ (by decide), lookup_setKey_self]

theorem lookup_addReserved_ts (m : Meta) (id : String) (ts : Nat) (dt : String) :
    (addReserved m id ts dt).lookup "timestamp" = some (.vnat ts) := by
  unfold addReserved
  rw [lookup_setKey_ne _ _ (by decide), lookup_setKey_self]

theorem lookup_addReserved_dt (m : Meta) (id : String) (ts : Nat) (dt : String) :
    (addReserved m id ts dt).lookup "date_time" = some (.vstr dt) := by
  unfold addReserved
  rw [lookup_setKey_self]

theorem lookup_addReserved_other (m : Meta) {k : String} (id : String) (ts : Nat)
    (dt : String) (h1 : k ≠ "id") (h2 : k ≠ "timestamp") (h3 : k ≠ "date_time") :
    (addReserved m id ts dt).lookup k = m.lookup k := by
  unfold addReserved
  rw [lookup_setKey_ne _ _ h3, lookup_setKey_ne _ _ h2, lookup_setKey_ne _ _ h1]

theorem addReserved_ne_nil (m : Meta) (id : String) (ts : Nat) (dt : String) :
    addReserved m id ts dt ≠ [] :=
  setKey_ne_nil _ _ _

theorem writeFile_fresh (l : List (String × Meta)) (id : String) (m : Meta)
    (h : id ∉ l.map Prod.fst) : writeFile l id m = l ++ [(id, m)] := by
  induction l with
  | nil => rfl
  | cons p t ih =>
    simp only [List.map_cons, List.mem_cons] at h
    push_neg at h
    simp [writeFile, Ne.symm h.1, ih h.2]

theorem getSummary_write (cfg : Config) (st : GuardState) (s : Summary) :
    getSummary cfg (write_summary cfg st s) = s := by
  by_cases hc : cfg.cache <;> simp [getSummary, write_summary, hc]

theorem cleanupLoop_summaryFile (keep : List (Option Val)) (ms : List (String × Meta))
    (fs : GuardFS) : (cleanupLoop keep ms fs).summaryFile = fs.summaryFile := by
  induction ms generalizing fs with
  | nil => rfl
  | cons q rest ih =>
    obtain ⟨id, r⟩ := q
    by_cases h : some (Val.vstr id) ∈ keep <;> simp [cleanupLoop, h, ih]

theorem cleanupLoop_metaFiles (keep : List (Option Val)) (ms : List (String × Meta))
    (fs : GuardFS) :
    (cleanupLoop keep ms fs).metaFiles =
      fs.metaFiles.filter
        (fun p => ms.all (fun q => decide (q.1 = p.1 → some (Val.vstr q.1) ∈ keep))) := by
  induction ms generalizing fs with
  | nil =>
    simp [cleanupLoop]
  | cons q rest ih =>
    obtain ⟨id, r⟩ := q
    by_cases h : some (Val.vstr id) ∈ keep
    · simp only [cleanupLoop, if_pos h, ih]
      refine List.filter_congr ?_
      intro p hp
      by_cases h1 : id = p.1
      · subst h1
        simp [h]
      · simp [h1, h]
    · simp only [cleanupLoop, if_neg h, ih, List.filter_filter]
      refine List.filter_congr ?_
      intro p hp
      by_cases h1 : id = p.1
      · subst h1
        simp [h]
      · simp [h1, h, Ne.symm h1]

theorem cleanupLoop_dumpFiles (keep : List (Option Val)) (ms : List (String × Meta))
    (fs : GuardFS) :
    (cleanupLoop keep ms fs).dumpFiles =
      fs.dumpFiles.filter
        (fun f => ms.all
          (fun q => decide (some (Val.vstr q.1) ∈ keep ∨ strIsPrefixOf q.1 f = false))) := by
  induction ms generalizing fs with
  | nil =>
    simp [cleanupLoop]
  | cons q rest ih =>
    obtain ⟨id, r⟩ := q
    by_cases h : some (Val.vstr id) ∈ keep
    · simp only [cleanupLoop, if_pos h, ih]
      refine List.filter_congr ?_
      intro f hf
      simp [h]
    · simp only [cleanupLoop, if_neg h, ih, removeDump, List.filter_filter]
      refine List.filter_congr ?_
      intro f hf
      by_cases h1 : strIsPrefixOf id f = false <;> simp [h1, h, Bool.and_comm]

theorem cleanup_all (cfg : Config) (st : GuardState)
    (hall : strContains cfg.mode "all" = true) : cleanup cfg st = st := by
  simp [cleanup, hall]

theorem cleanup_cache (cfg : Config) (st : GuardState) :
    (cleanup cfg st).cache = st.cache := by
  unfold cleanup
  split <;> rfl

theorem cleanup_defaultMeta (cfg : Config) (st : GuardState) :
    (cleanup cfg st).defaultMeta = st.defaultMeta := by
  unfold cleanup
  split <;> rfl

theorem cleanup_summaryFile (cfg : Config) (st : GuardState) :
    (cleanup cfg st).fs.summaryFile = st.fs.summaryFile := by
  unfold cleanup
  split
  · rfl
  · simp [cleanupLoop_summaryFile]

theorem getSummary_cleanup (cfg : Config) (st : GuardState) :
    getSummary cfg (cleanup cfg st) = getSummary cfg st := by
  simp only [getSummary, cleanup_cache, cleanup_summaryFile]

theorem cleanup_metaFiles (cfg : Config) (st : GuardState)
    (hall : strContains cfg.mode "all" = false) :
    (cleanup cfg st).fs.metaFiles =
      st.fs.metaFiles.filter
        (fun p => decide (some (Val.vstr p.1) ∈ keepList cfg (getSummary cfg st))) := by
  simp only [cleanup, hall, Bool.false_eq_true, if_false, cleanupLoop_metaFiles]
  refine List.filter_congr ?_
  intro p hp
  by_cases hkeep : some (Val.vstr p.1) ∈ keepList cfg (getSummary cfg st)
  · simp only [hkeep, decide_True]
    rw [List.all_eq_true]
    intro q hq
    by_cases h1 : q.1 = p.1 <;> simp [h1, hkeep]
  · simp only [hkeep, decide_False]
    rw [Bool.eq_false_iff]
    intro hall'
    rw [List.all_eq_true] at hall'
    have := hall' p hp
    simp [hkeep] at this

theorem cleanup_dumpFiles (cfg : Config) (st : GuardState)
    (hall : strContains cfg.mode "all" = false) :
    (cleanup cfg st).fs.dumpFiles =
      st.fs.dumpFiles.filter
        (fun f => st.fs.metaFiles.all
          (fun q => decide (some (Val.vstr q.1) ∈ keepList cfg (getSummary cfg st) ∨
            strIsPrefixOf q.1 f = false))) := by
  simp only [cleanup, hall, Bool.false_eq_true, if_false, cleanupLoop_dumpFiles]

theorem GuardState.eq_of (a b : GuardState) (h1 : a.fs.metaFiles = b.fs.metaFiles)
    (h2 : a.fs.dumpFiles = b.fs.dumpFiles) (h3 : a.fs.summaryFile = b.fs.summaryFile)
    (h4 : a.cache = b.cache) (h5 : a.defaultMeta = b.defaultMeta) : a = b := by
  obtain ⟨⟨am, ad, as⟩, ac, adm⟩ := a
  obtain ⟨⟨bm, bd, bs⟩, bc, bdm⟩ := b
  simp_all

theorem update_summary_nokey (cfg : Config) (st : GuardState) (meta : Meta)
    (hk : cfg.best_key = none) :
    update_summary cfg st meta =
      .ok ({ last := some meta, best := (getSummary cfg st).best },
        write_summary cfg st { last := some meta, best := (getSummary cfg st).best }) := by
  unfold update_summary
  rw [hk]

theorem update_summary_best (cfg : Config) (st : GuardState) (meta : Meta)
    (k : String) (v : Val) (hk : cfg.best_key = some k) (hv : meta.lookup k = some v) :
    ∃ s2 : Summary, update_summary cfg st meta = .ok (s2, write_summary cfg st s2) ∧
      s2.last = some meta ∧
      s2.best = (match (getSummary cfg st).best with
        | none => some meta
        | some b => match b.lookup k with
          | none => some meta
          | some old => if cfg.best_compare v old then some meta else some b) := by
  unfold update_summary
  rw [hk]
  dsimp only
  cases hb : (getSummary cfg st).best with
  | none => exact ⟨_, rfl, rfl, rfl⟩
  | some b =>
    dsimp only
    cases hlb : b.lookup k with
    | none => exact ⟨_, rfl, rfl, rfl⟩
    | some old =>
      rw [hv]
      dsimp only
      by_cases hc : cfg.best_compare v old = true
      · rw [if_pos hc, if_pos hc]
        exact ⟨_, rfl, rfl, rfl⟩
      · rw [if_neg hc, if_neg hc]
        exact ⟨_, rfl, rfl, rfl⟩

theorem update_summary_ok (cfg : Config) (st : GuardState) (meta : Meta)
    (h : ∀ k, cfg.best_key = some k → (meta.lookup k).isSome = true) :
    ∃ s2 : Summary, update_summary cfg st meta = .ok (s2, write_summary cfg st s2) ∧
      s2.last = some meta := by
  cases hk : cfg.best_key with
  | none => exact ⟨_, update_summary_nokey cfg st meta hk, rfl⟩
  | some k =>
    have hs := h k hk
    cases hv : meta.lookup k with
    | none =>
      rw [hv] at hs
      simp at hs
    | some v =>
      obtain ⟨s2, heq, hlast, _⟩ := update_summary_best cfg st meta k v hk hv
      exact ⟨s2, heq, hlast⟩

theorem getSummary_save (cfg : Config) (st : GuardState) (m : Meta) (id : String)
    (ts : Nat) (dt : String) :
    getSummary cfg (save_meta st m id ts dt).2 = getSummary cfg st := rfl

theorem save_meta_fst (st : GuardState) (m : Meta) (id : String) (ts : Nat)
    (dt : String) : (save_meta st m id ts dt).1 = addReserved m id ts dt := rfl

theorem checkpoint_some_eq (cfg : Config) (st : GuardState) (m : Meta) (id : String)
    (ts : Nat) (dt : String) :
    checkpoint cfg st (some m) id ts dt =
      match update_summary cfg (save_meta st m id ts dt).2 (addReserved m id ts dt) with
      | .error e => .error e
      | .ok r => .ok (.notImplemented, cleanup cfg r.2) := rfl

theorem checkpoint_ok (cfg : Config) (st : GuardState) (m : Meta) (id : String)
    (ts : Nat) (dt : String)
    (h : ∀ k, cfg.best_key = some k → ((addReserved m id ts dt).lookup k).isSome = true) :
    ∃ s2 : Summary,
      checkpoint cfg st (some m) id ts dt =
        .ok (.notImplemented,
          cleanup cfg (write_summary cfg (save_meta st m id ts dt).2 s2)) ∧
      s2.last = some (addReserved m id ts dt) := by
  obtain ⟨s2, heq, hlast⟩ :=
    update_summary_ok cfg (save_meta st m id ts dt).2 (addReserved m id ts dt) h
  refine ⟨s2, ?_, hlast⟩
  rw [checkpoint_some_eq, heq]

theorem getBest_after (cfg : Config) (st : GuardState) (s : Summary) :
    getBest cfg (cleanup cfg (write_summary cfg st s)) = s.best := by
  unfold getBest
  rw [getSummary_cleanup, getSummary_write]

theorem getLast_after (cfg : Config) (st : GuardState) (s : Summary) :
    getLast cfg (cleanup cfg (write_summary cfg st s)) = s.last := by
  unfold getLast
  rw [getSummary_cleanup, getSummary_write]

theorem writeFile_mem (l : List (String × Meta)) (id : String) (m : Meta) :
    (id, m) ∈ writeFile l id m := by
  induction l with
  | nil => simp [writeFile]
  | cons p t ih =>
    obtain ⟨i, r⟩ := p
    by_cases h : i = id <;> simp [writeFile, h, ih]

theorem checkpoint_best_char (cfg : Config) (st : GuardState) (m : Meta) (id : String)
    (ts : Nat) (dt : String) (k : String) (v : Val) (hk : cfg.best_key = some k)
    (hv : (addReserved m id ts dt).lookup k = some v) :
    ∃ r st', checkpoint cfg st (some m) id ts dt = .ok (r, st') ∧
      getBest cfg st' = (match getBest cfg st with
        | none => some (addReserved m id ts dt)
        | some b => match b.lookup k with
          | none => some (addReserved m id ts dt)
          | some old =>
            if cfg.best_compare v old then some (addReserved m id ts dt) else some b) ∧
      getLast cfg st' = some (addReserved m id ts dt) := by
  obtain ⟨s2, heq, hlast, hbest⟩ :=
    update_summary_best cfg (save_meta st m id ts dt).2 (addReserved m id ts dt) k v hk hv
  refine ⟨.notImplemented,
    cleanup cfg (write_summary cfg (save_meta st m id ts dt).2 s2), ?_, ?_, ?_⟩
  · rw [checkpoint_some_eq, heq]
  · rw [getBest_after, hbest, getSummary_save]
    rfl
  · rw [getLast_after, hlast]

end Guard

/-! ## Claim theorems -/

namespace Guard

/-- Claim C1: best-tracking is a left-fold over checkpoint metadata.  With a
configured `best_key` and comparator, after each `checkpoint` call the
summary's `best` is the new (merged) record if no `best` exists yet or the
best key is absent from the current `best` record, and otherwise it is the new
record exactly when `best_compare(new value, old value)` holds and the running
best otherwise; and with comparator `new < old` over key values
`[5, 3, 8, 1, 9]`, `get_best()` after the full sequence returns the record
with value 1. -/
theorem claim_C1 :
    (∀ (cfg : Config) (st : GuardState) (m : Meta) (id : String) (ts : Nat)
       (dt : String) (k : String) (v : Val),
      cfg.best_key = some k →
      (addReserved m id ts dt).lookup k = some v →
      ∃ r st', checkpoint cfg st (some m) id ts dt = .ok (r, st') ∧
        getBest cfg st' = (match getBest cfg st with
          | none => some (addReserved m id ts dt)
          | some b => match b.lookup k with
            | none => some (addReserved m id ts dt)
            | some old =>
              if cfg.best_compare v old then some (addReserved m id ts dt)
              else some b)) ∧
    (runSeq cfgAll initState callsBest).toOption.map (getBest cfgAll) =
      some (some [("v", Val.vnat 1), ("id", Val.vstr "i3"), ("timestamp", Val.vnat 3),
        ("date_time", Val.vstr "t3")]) := by
  constructor
  · intro cfg st m id ts dt k v hk hv
    obtain ⟨r, st', h1, h2, _⟩ := checkpoint_best_char cfg st m id ts dt k v hk hv
    exact ⟨r, st', h1, h2⟩
  · decide

/-- Witness for C1: one concrete checkpoint call from the empty state with
best key `"v"`; the new record unconditionally becomes `best`. -/
theorem claim_C1_witness :
    (checkpoint cfgAll initState (some [("v", Val.vnat 5)]) "i0" 0 "t0").toOption.map
        (fun r => getBest cfgAll r.2) =
      some (some (addReserved [("v", Val.vnat 5)] "i0" 0 "t0")) := by
  obtain ⟨r, st', h1, h2⟩ :=
    claim_C1.1 cfgAll initState [("v", Val.vnat 5)] "i0" 0 "t0" "v" (Val.vnat 5)
      (by decide) (by decide)
  rw [h1]
  simp only [Except.toOption, Option.map, h2]
  decide

/-- Claim C4 fails on the code: `Guard.remove` matches dump files with the
bare prefix glob `id + "*"`, so removing the artifacts of id `"1"` also
deletes `"12.pth"`, a file of the distinct id `"12"` of which `"1"` is a
proper textual prefix. -/
theorem claim_C4 :
    ("1" : String) ≠ "12" ∧ strIsPrefixOf "1" "12" = true ∧
    "12.pth" ∈ fsPrefixPair.dumpFiles ∧
    "12.pth" ∉ (remove fsPrefixPair "1").dumpFiles ∧
    (remove fsPrefixPair "1").dumpFiles = [] := by
  decide

/-- Claim C5: the aggregation logic of `get_history` matches the claim (two
records `{a:1}` then `{b:2}` give columns `a = [1, None]`, `b = [None, 2]`
with the reserved fields aligned in every entry), but the method itself
applies `json.load` to the filename strings returned by `glob.glob`, so it
raises `AttributeError` whenever the metadata directory is non-empty; only the
empty directory returns normally. -/
theorem claim_C5 :
    get_history stOneRecord = .error PyError.attributeError ∧
    get_history initState = .ok [] ∧
    historyAggregate [recA, recB] =
      [("a", [Val.vnat 1, Val.vnone]), ("id", [Val.vstr "i1", Val.vstr "i2"]),
       ("timestamp", [Val.vnat 1, Val.vnat 2]),
       ("date_time", [Val.vstr "d1", Val.vstr "d2"]),
       ("b", [Val.vnone, Val.vnat 2])] := by
  exact ⟨rfl, rfl, by decide⟩

/-- Claim C6, amended: when the summary lacks `best` (resp. `last`),
`deserialize_best` (resp. `deserialize_last`) fails with the opaque
key-lookup failure `KeyError("best")` (resp. `KeyError("last")`), not with the
`NoSuchCheckpointError` the spec prescribes. -/
theorem claim_C6 : ∀ (cfg : Config) (st : GuardState),
    ((getSummary cfg st).best = none →
      deserialize_best cfg st = .error (PyError.keyError "best")) ∧
    ((getSummary cfg st).last = none →
      deserialize_last cfg st = .error (PyError.keyError "last")) ∧
    PyError.keyError "best" ≠ PyError.noSuchCheckpoint ∧
    PyError.keyError "last" ≠ PyError.noSuchCheckpoint := by
  intro cfg st
  refine ⟨?_, ?_, by decide, by decide⟩
  · intro h
    unfold deserialize_best
    rw [h]
  · intro h
    unfold deserialize_last
    rw [h]

/-- Counterexample to C6 as stated: on the fresh state (no summary at all),
`deserialize_best` and `deserialize_last` fail with `KeyError`, not with a
`NoSuchCheckpointError`. -/
theorem claim_C6_counterexample :
    deserialize_best cfgPlain initState = .error (PyError.keyError "best") ∧
    deserialize_last cfgPlain initState = .error (PyError.keyError "last") ∧
    deserialize_best cfgPlain initState ≠ .error PyError.noSuchCheckpoint ∧
    deserialize_last cfgPlain initState ≠ .error PyError.noSuchCheckpoint := by
  refine ⟨rfl, rfl, ?_, ?_⟩
  · intro h
    rw [show deserialize_best cfgPlain initState = .error (PyError.keyError "best") from rfl] at h
    exact absurd (Except.error.inj h) (by decide)
  · intro h
    rw [show deserialize_last cfgPlain initState = .error (PyError.keyError "last") from rfl] at h
    exact absurd (Except.error.inj h) (by decide)

/-- Witness for the amended C6 at the fresh state. -/
theorem claim_C6_witness :
    deserialize_best cfgPlain initState = .error (PyError.keyError "best") ∧
    deserialize_last cfgPlain initState = .error (PyError.keyError "last") := by
  have h := claim_C6 cfgPlain initState
  exact ⟨h.1 (by decide), h.2.1 (by decide)⟩

/-- Claim C8 fails on the code: after one no-argument `checkpoint` call, the
shared default dict already holds that call's `id`/`timestamp`/`date_time`, so
the mapping a second no-argument call starts from (`metaArg.getD` of the
stored default) is that same non-empty dict, not a fresh empty mapping. -/
theorem claim_C8 :
    (checkpoint cfgPlain initState none "id1" 5 "dt1").toOption.map
        (fun r => (none : Option Meta).getD r.2.defaultMeta) =
      some [("id", Val.vstr "id1"), ("timestamp", Val.vnat 5),
        ("date_time", Val.vstr "dt1")] ∧
    (checkpoint cfgPlain initState none "id1" 5 "dt1").toOption.map
        (fun r => decide ((none : Option Meta).getD r.2.defaultMeta = [])) =
      some false := by
  decide

/-- Claim C9: with a configured best key present in the current `best` record,
a checkpoint whose merged metadata lacks that key fails with `KeyError` inside
`update_summary`, after the metadata file was written but before the summary
file was: the returned error state has the new metadata file on disk and the
summary file unchanged. -/
theorem claim_C9 : ∀ (cfg : Config) (st : GuardState) (k : String) (b : Meta)
    (old : Val) (m : Meta) (id : String) (ts : Nat) (dt : String),
    cfg.best_key = some k →
    (getSummary cfg st).best = some b →
    b.lookup k = some old →
    (addReserved m id ts dt).lookup k = none →
    ∃ stE, checkpoint cfg st (some m) id ts dt = .error (.keyError k, stE) ∧
      stE.fs.summaryFile = st.fs.summaryFile ∧
      stE.fs.metaFiles = writeFile st.fs.metaFiles id (addReserved m id ts dt) := by
  intro cfg st k b old m id ts dt hk hb hlb hm
  rw [checkpoint_some_eq]
  unfold update_summary
  rw [hk]
  dsimp only
  rw [getSummary_save, hb]
  dsimp only
  rw [hlb]
  dsimp only
  rw [hm]
  dsimp only
  refine ⟨_, rfl, ?_, ?_⟩
  · split <;> rfl
  · split <;> rfl

/-- Witness for C9: the state `stWithBest` has `best = {v:7, ...}`; a
checkpoint `{w:0}` lacking the key `"v"` fails with `KeyError("v")`, leaves
the summary file unchanged and has written `meta/i9.json`. -/
theorem claim_C9_witness :
    (match checkpoint cfgAll stWithBest (some [("w", Val.vnat 0)]) "i9" 9 "t9" with
      | .error e => e.1 = PyError.keyError "v" ∧
          e.2.fs.summaryFile = stWithBest.fs.summaryFile ∧
          e.2.fs.metaFiles =
            writeFile stWithBest.fs.metaFiles "i9" (addReserved [("w", Val.vnat 0)] "i9" 9 "t9")
      | .ok _ => False) := by
  obtain ⟨stE, heq, h1, h2⟩ :=
    claim_C9 cfgAll stWithBest "v" stWithBest.recV (Val.vnat 7) [("w", Val.vnat 0)]
      "i9" 9 "t9" (by decide) (by decide) (by decide) (by decide)
  rw [heq]
  exact ⟨rfl, h1, h2⟩

/-- Claim C10: the base-class `serialize` and `deserialize` return the
`NotImplemented` sentinel without raising, and a `checkpoint` call on an
instance that does not override `serialize` does not fail with
`SerializationError`: it writes the metadata file, updates the summary, runs
`cleanup`, and returns `NotImplemented`. -/
theorem claim_C10 :
    (∀ path : String, serialize path = SerResult.notImplemented ∧
      deserialize path = SerResult.notImplemented) ∧
    (∀ (cfg : Config) (st : GuardState) (m : Meta) (id : String) (ts : Nat)
       (dt : String),
      (∀ k, cfg.best_key = some k →
        ((addReserved m id ts dt).lookup k).isSome = true) →
      ∃ st2 : GuardState,
        checkpoint cfg st (some m) id ts dt =
          .ok (SerResult.notImplemented, cleanup cfg st2) ∧
        (id, addReserved m id ts dt) ∈ st2.fs.metaFiles ∧
        getLast cfg st2 = some (addReserved m id ts dt)) := by
  constructor
  · intro path
    exact ⟨rfl, rfl⟩
  · intro cfg st m id ts dt h
    obtain ⟨s2, heq, hlast⟩ := checkpoint_ok cfg st m id ts dt h
    refine ⟨write_summary cfg (save_meta st m id ts dt).2 s2, heq, ?_, ?_⟩
    · show (id, addReserved m id ts dt) ∈ writeFile st.fs.metaFiles id (addReserved m id ts dt)
      exact writeFile_mem st.fs.metaFiles id (addReserved m id ts dt)
    · unfold getLast
      rw [getSummary_write]
      exact hlast

/-- Witness for C10: a concrete checkpoint with no best key configured returns
`NotImplemented`. -/
theorem claim_C10_witness :
    (checkpoint cfgPlain initState (some [("x", Val.vnat 1)]) "i9" 9 "t9").toOption.map
        Prod.fst = some SerResult.notImplemented := by
  obtain ⟨st2, heq, _, _⟩ :=
    claim_C10.2 cfgPlain initState [("x", Val.vnat 1)] "i9" 9 "t9"
      (by intro k hk
          rw [show cfgPlain.best_key = none from rfl] at hk
          exact Option.noConfusion hk)
  rw [heq]
  rfl

/-- Claim C7: retention cleanup is idempotent: with the summary unchanged, a
second `cleanup` computes the same keep list, runs without error (the model is
a total function because `os.remove` is only applied to files the surrounding
glob just found), and leaves the state of the first `cleanup` untouched. -/
theorem claim_C7 : ∀ (cfg : Config) (st : GuardState),
    keepList cfg (getSummary cfg (cleanup cfg st)) = keepList cfg (getSummary cfg st) ∧
    cleanup cfg (cleanup cfg st) = cleanup cfg st := by
  intro cfg st
  refine ⟨by rw [getSummary_cleanup], ?_⟩
  by_cases hall : strContains cfg.mode "all" = true
  · rw [cleanup_all cfg _ hall, cleanup_all cfg _ hall]
  · have hall' : strContains cfg.mode "all" = false := by
      cases h : strContains cfg.mode "all" with
      | true => exact absurd h hall
      | false => rfl
    apply GuardState.eq_of
    · rw [cleanup_metaFiles cfg (cleanup cfg st) hall', getSummary_cleanup,
        cleanup_metaFiles cfg st hall', List.filter_filter]
      refine List.filter_congr ?_
      intro p hp
      rw [Bool.and_self]
    · rw [cleanup_dumpFiles cfg (cleanup cfg st) hall', getSummary_cleanup]
      refine List.filter_eq_self.mpr ?_
      intro f hf
      rw [List.all_eq_true]
      intro q hq
      rw [cleanup_metaFiles cfg st hall', List.mem_filter] at hq
      have hkeep := hq.2
      rw [decide_eq_true_eq] at hkeep
      simp [hkeep]
    · rw [cleanup_summaryFile, cleanup_summaryFile]
    · rw [cleanup_cache, cleanup_cache]
    · rw [cleanup_defaultMeta, cleanup_defaultMeta]

/-- Claim C2: with a retention mode containing `best` and/or `last` but not
`all`, the keep list holds exactly the union of the summary's best id (when
`best` is requested and present with an id) and last id (when `last` is
requested and present with an id); a metadata file survives `cleanup` exactly
when its id is kept; the dump files of every non-kept checkpoint id are
deleted; and in the spec's example (`last,best`, checkpoints
`[{v:5},{v:2},{v:9}]`, lower is better) exactly the records `b2` (best) and
`c3` (last) survive. -/
theorem claim_C2 :
    (∀ (cfg : Config) (st : GuardState),
      strContains cfg.mode "all" = false →
      (strContains cfg.mode "best" = true ∨ strContains cfg.mode "last" = true) →
      (∀ id : String,
        (some (Val.vstr id) ∈ keepList cfg (getSummary cfg st)) ↔
          ((strContains cfg.mode "best" = true ∧
            (getSummary cfg st).best.bind (fun b => b.lookup "id") =
              some (Val.vstr id)) ∨
           (strContains cfg.mode "last" = true ∧
            (getSummary cfg st).last.bind (fun l => l.lookup "id") =
              some (Val.vstr id)))) ∧
      (∀ p, p ∈ (cleanup cfg st).fs.metaFiles ↔
        p ∈ st.fs.metaFiles ∧
          some (Val.vstr p.1) ∈ keepList cfg (getSummary cfg st)) ∧
      (∀ q ∈ st.fs.metaFiles,
        some (Val.vstr q.1) ∉ keepList cfg (getSummary cfg st) →
        ∀ f ∈ st.fs.dumpFiles, strIsPrefixOf q.1 f = true →
          f ∉ (cleanup cfg st).fs.dumpFiles)) ∧
    (runSeq cfgLastBest initState callsRetention).toOption.map
        (fun st => (st.fs.metaFiles.map Prod.fst, st.fs.dumpFiles)) =
      some (["b2", "c3"], []) := by
  constructor
  · intro cfg st hall _
    refine ⟨?_, ?_, ?_⟩
    · intro id
      by_cases hb : strContains cfg.mode "best" = true <;>
        by_cases hl : strContains cfg.mode "last" = true <;>
          simp [keepList, hb, hl, eq_comm]
    · intro p
      rw [cleanup_metaFiles cfg st hall]
      simp [List.mem_filter]
    · intro q hq hqk f hf hpre hmem
      rw [cleanup_dumpFiles cfg st hall, List.mem_filter] at hmem
      have hall2 := hmem.2
      rw [List.all_eq_true] at hall2
      have hcl := hall2 q hq
      rw [decide_eq_true_eq] at hcl
      cases hcl with
      | inl h => exact hqk h
      | inr h => simp [hpre] at h
  · decide

/-- Witness for C2: in the summary of `stRet` (best = record `b2`, last =
record `c3`, mode `last,best`), the non-kept record `a1` does not survive
`cleanup`. -/
theorem claim_C2_witness :
    (("a1", stRet.rec1) ∈ (cleanup cfgLastBest stRet).fs.metaFiles ↔
      ("a1", stRet.rec1) ∈ stRet.fs.metaFiles ∧
        some (Val.vstr "a1") ∈ keepList cfgLastBest (getSummary cfgLastBest stRet)) := by
  exact (claim_C2.1 cfgLastBest stRet (by decide) (Or.inl (by decide))).2.1
    ("a1", stRet.rec1)

/-- The mode-`all` run of a checkpoint sequence: every call succeeds, the
metadata directory accumulates one fresh file per call, and the summary's
`last` follows the most recent call. -/
theorem runSeq_all (cfg : Config) (hall : strContains cfg.mode "all" = true) :
    ∀ (calls : List CallIn) (st : GuardState),
    (∀ c ∈ calls, ∀ k, cfg.best_key = some k →
      ((addReserved c.meta c.id c.ts c.dt).lookup k).isSome = true) →
    (∀ c ∈ calls, c.id ∉ st.fs.metaFiles.map Prod.fst) →
    (calls.map CallIn.id).Nodup →
    ∃ st', runSeq cfg st calls = .ok st' ∧
      st'.fs.metaFiles = st.fs.metaFiles ++
        calls.map (fun c => (c.id, addReserved c.meta c.id c.ts c.dt)) ∧
      getLast cfg st' = calls.getLast?.elim (getLast cfg st)
        (fun c => some (addReserved c.meta c.id c.ts c.dt)) := by
  intro calls
  induction calls with
  | nil =>
    intro st _ _ _
    exact ⟨st, rfl, by simp, by simp [Option.elim]⟩
  | cons c rest ih =>
    intro st hok hfresh hnodup
    obtain ⟨s2, heq, hlast⟩ :=
      checkpoint_ok cfg st c.meta c.id c.ts c.dt (hok c (by simp))
    have hclean :
        cleanup cfg (write_summary cfg (save_meta st c.meta c.id c.ts c.dt).2 s2) =
          write_summary cfg (save_meta st c.meta c.id c.ts c.dt).2 s2 :=
      cleanup_all cfg _ hall
    have hstep : runSeq cfg st (c :: rest) =
        runSeq cfg (write_summary cfg (save_meta st c.meta c.id c.ts c.dt).2 s2) rest := by
      simp only [runSeq, heq, hclean]
    have hmetaW :
        (write_summary cfg (save_meta st c.meta c.id c.ts c.dt).2 s2).fs.metaFiles =
          st.fs.metaFiles ++ [(c.id, addReserved c.meta c.id c.ts c.dt)] := by
      have h1 :
          (write_summary cfg (save_meta st c.meta c.id c.ts c.dt).2 s2).fs.metaFiles =
            writeFile st.fs.metaFiles c.id (addReserved c.meta c.id c.ts c.dt) := rfl
      rw [h1, writeFile_fresh _ _ _ (hfresh c (by simp))]
    have hlastW :
        getLast cfg (write_summary cfg (save_meta st c.meta c.id c.ts c.dt).2 s2) =
          some (addReserved c.meta c.id c.ts c.dt) := by
      unfold getLast
      rw [getSummary_write]
      exact hlast
    have hnotin : c.id ∉ rest.map CallIn.id :=
      (List.nodup_cons.mp (by simpa using hnodup)).1
    have hfresh' : ∀ c' ∈ rest,
        c'.id ∉ (write_summary cfg (save_meta st c.meta c.id c.ts c.dt).2
          s2).fs.metaFiles.map Prod.fst := by
      intro c' hc'
      rw [hmetaW]
      simp only [List.map_append, List.mem_append]
      rintro (h | h)
      · exact hfresh c' (by simp [hc']) h
      · simp only [List.map_cons, List.map_nil, List.mem_singleton] at h
        exact hnotin (h ▸ List.mem_map_of_mem CallIn.id hc')
    obtain ⟨st', hrun, hmeta', hlast'⟩ :=
      ih (write_summary cfg (save_meta st c.meta c.id c.ts c.dt).2 s2)
        (fun c' hc' => hok c' (by simp [hc'])) hfresh'
        ((List.nodup_cons.mp (by simpa using hnodup)).2)
    refine ⟨st', by rw [hstep]; exact hrun, ?_, ?_⟩
    · rw [hmeta', hmetaW]
      simp [List.append_assoc]
    · rw [hlast']
      cases rest with
      | nil => simp [Option.elim, hlastW]
      | cons d ds =>
        rw [List.getLast?_cons_cons]
        cases hg : (d :: ds).getLast? with
        | none => simp at hg
        | some e => simp [Option.elim]

/-- Claim C3: the reserved fields are merged into every record, and for every
sequence of `checkpoint` calls under mode `all` (distinct fresh ids, no
best-key failure), the run succeeds, `get_last()` returns exactly the
metadata merged in the last call, and the metadata directory holds one
distinct, non-empty record per call whose stored id matches its filename. -/
theorem claim_C3 :
    (∀ (m : Meta) (id : String) (ts : Nat) (dt : String),
      (addReserved m id ts dt).lookup "id" = some (.vstr id) ∧
      (addReserved m id ts dt).lookup "timestamp" = some (.vnat ts) ∧
      (addReserved m id ts dt).lookup "date_time" = some (.vstr dt) ∧
      addReserved m id ts dt ≠ []) ∧
    (∀ (cfg : Config) (calls : List CallIn),
      strContains cfg.mode "all" = true →
      (∀ c ∈ calls, ∀ k, cfg.best_key = some k →
        ((addReserved c.meta c.id c.ts c.dt).lookup k).isSome = true) →
      (calls.map CallIn.id).Nodup →
      ∃ st', runSeq cfg initState calls = .ok st' ∧
        st'.fs.metaFiles =
          calls.map (fun c => (c.id, addReserved c.meta c.id c.ts c.dt)) ∧
        st'.fs.metaFiles.length = calls.length ∧
        (st'.fs.metaFiles.map Prod.fst).Nodup ∧
        (∀ p ∈ st'.fs.metaFiles,
          p.2.lookup "id" = some (.vstr p.1) ∧ p.2 ≠ []) ∧
        (∀ c, calls.getLast? = some c →
          getLast cfg st' = some (addReserved c.meta c.id c.ts c.dt))) := by
  constructor
  · intro m id ts dt
    exact ⟨lookup_addReserved_id m id ts dt, lookup_addReserved_ts m id ts dt,
      lookup_addReserved_dt m id ts dt, addReserved_ne_nil m id ts dt⟩
  · intro cfg calls hall hok hnodup
    obtain ⟨st', hrun, hmeta, hlast⟩ :=
      runSeq_all cfg hall calls initState hok (by intro c _; simp [initState]) hnodup
    rw [show initState.fs.metaFiles = ([] : List (String × Meta)) from rfl] at hmeta
    rw [List.nil_append] at hmeta
    refine ⟨st', hrun, hmeta, ?_, ?_, ?_, ?_⟩
    · rw [hmeta, List.length_map]
    · rw [hmeta, List.map_map]
      simpa [Function.comp] using hnodup
    · intro p hp
      rw [hmeta, List.mem_map] at hp
      obtain ⟨c, _, rfl⟩ := hp
      exact ⟨lookup_addReserved_id _ _ _ _, addReserved_ne_nil _ _ _ _⟩
    · intro c hc
      rw [hlast, hc]
      simp [Option.elim]

/-- Witness for C3: two concrete calls under mode `all` leave exactly the two
metadata files `x1.json` and `x2.json`. -/
theorem claim_C3_witness :
    (runSeq cfgPlain initState callsTwo).toOption.map
        (fun st => st.fs.metaFiles.map Prod.fst) = some ["x1", "x2"] := by
  obtain ⟨st', hrun, hmeta, _, _, _, _⟩ :=
    claim_C3.2 cfgPlain callsTwo (by decide)
      (by intro c _ k hk
          rw [show cfgPlain.best_key = none from rfl] at hk
          exact Option.noConfusion hk)
      (by decide)
  simp only [hrun, Except.toOption, Option.map, hmeta]
  decide

end Guard
